import Mathlib

set_option autoImplicit false

/-!
Verification development for the CloudCostIQ synthetic-data core: the
`mockData` service (resource / cost / utilization / anomaly / budget
generators, forecast projector, time-series query surface) together with the
sibling `forecastService` helpers (`createMockForecast`, `checkBudgetExceed`).

Modelling conventions, chosen once for the whole file:
* JavaScript numbers are modelled as exact rationals (`ℚ`); only the forecast
  projector, whose daily trend is a fractional power, is modelled over `ℝ`.
* Calendar dates are integer day indices (`ℤ`); the calendar queries of the
  host `Date` object (day of week, day of month, days in month, month, year)
  are collected in an abstract `Calendar` record, so theorems hold for every
  calendar.
* Every `Math.random()` call site draws from an explicit stream `ℕ → ℚ`
  whose values are assumed to lie in `[0, 1)`, exactly the range of
  `Math.random()`.
* Purely cosmetic string fields (uuid-based `id`s, human-readable
  `explanation` messages) are omitted from the embedded records; no claim
  mentions them.
-/

/-- Rounding to one decimal digit, as `parseFloat(x.toFixed(1))` behaves on
the nonnegative quantities this code produces. -/
def round1 (q : ℚ) : ℚ := (⌊q * 10 + 1/2⌋ : ℚ) / 10

/-- Rounding to two decimal digits, as `parseFloat(x.toFixed(2))`. -/
def round2 (q : ℚ) : ℚ := (⌊q * 100 + 1/2⌋ : ℚ) / 100

/-- One `(date, service, provider)` daily cost observation (`CostEntry` in
`mockData.ts`); the optional fields are part of the interface but are never
set by the generator. -/
structure CostEntry where
  date : ℤ
  daily_cost : ℚ
  service : String
  cloud_provider : String
  region : Option String := none
  account : Option String := none
  tags : Option (List (String × String)) := none
deriving DecidableEq, Inhabited

/-- Abstract view of the calendar queries `mockData.ts` performs on `Date`
values (`getDay`, `getDate`, month length, `getMonth`, `getFullYear`),
indexed by the integer day number of the date. -/
structure Calendar where
  dayOfWeek : ℤ → ℕ
  dayOfMonth : ℤ → ℕ
  daysInMonth : ℤ → ℕ
  month : ℤ → ℕ
  year : ℤ → ℤ

/-- The `CLOUD_PROVIDERS` constant. -/
def CLOUD_PROVIDERS : List String := ["AWS", "Azure", "GCP"]

/-- The `AWS_SERVICES` constant. -/
def AWS_SERVICES : List String :=
  ["EC2", "S3", "RDS", "Lambda", "ECS", "DynamoDB", "ELB", "CloudFront"]

/-- The `AZURE_SERVICES` constant. -/
def AZURE_SERVICES : List String :=
  ["Virtual Machines", "Storage", "SQL Database", "Functions", "App Service",
   "Cosmos DB", "Load Balancer", "CDN"]

/-- The `GCP_SERVICES` constant. -/
def GCP_SERVICES : List String :=
  ["Compute Engine", "Cloud Storage", "Cloud SQL", "Cloud Functions", "GKE",
   "Bigtable", "Load Balancing", "CDN"]

/-- The provider-to-service-list dispatch used by `generateCostData` and
`generateBudgets` (the provider-name ternary chain in the source). -/
def servicesOf (provider : String) : List String :=
  if provider == "AWS" then AWS_SERVICES
  else if provider == "Azure" then AZURE_SERVICES
  else GCP_SERVICES

/-- The provider-specific base monthly cost drawn at the head of the
per-service loop of `generateCostData`, with `r` the `Math.random()` draw. -/
def baseCostOf (provider : String) (r : ℚ) : ℚ :=
  if provider == "AWS" then 1000 + r * 2000
  else if provider == "Azure" then 800 + r * 1500
  else 500 + r * 1000

/-- Body of the per-day loop of `generateCostData`: one `CostEntry` for day
index `i` of the trailing window, combining the weekend, month-end, trend,
random and spike factors exactly as the source does.  `rnd i 0` is the daily
fluctuation draw, `rnd i 1` the spike-probability draw and `rnd i 2` the
spike-magnitude draw. -/
def costDay (cal : Calendar) (today : ℤ) (days : ℕ) (provider service : String)
    (base : ℚ) (rnd : ℕ → ℕ → ℚ) (i : ℕ) : CostEntry :=
  let date : ℤ := today - (days : ℤ) + (i : ℤ) + 1
  let weekendFactor : ℚ :=
    if cal.dayOfWeek date = 0 ∨ cal.dayOfWeek date = 6 then 7/10 else 1
  let monthEndFactor : ℚ :=
    if (cal.daysInMonth date : ℤ) - 5 < (cal.dayOfMonth date : ℤ) then 6/5 else 1
  let monthIndex : ℤ := (cal.month date : ℤ) + (cal.year date - cal.year today) * 12
  let trendFactor : ℚ := 1 + (monthIndex : ℚ) * (1/20)
  let randomFactor : ℚ := 9/10 + rnd i 0 * (2/10)
  let spikeFactor : ℚ := if rnd i 1 < 1/50 then 2 + rnd i 2 * 3 else 1
  let dailyCost : ℚ :=
    (base / 30) * weekendFactor * monthEndFactor * trendFactor * randomFactor * spikeFactor
  { date := date
    daily_cost := round2 (max dailyCost 10)
    service := service
    cloud_provider := provider }

/-- The inner per-service loop of `generateCostData`: `days` daily entries for
one `(provider, service)` pair. -/
def serviceCostSeries (cal : Calendar) (today : ℤ) (days : ℕ)
    (provider service : String) (base : ℚ) (rnd : ℕ → ℕ → ℚ) : List CostEntry :=
  (List.range days).map (costDay cal today days provider service base rnd)

/-- `generateCostData(days)`: for each provider and each of its services, a
base cost is drawn (`baseRnd`) and a daily series over the trailing `days`
window ending `today` is produced; `rnd p s` is the per-day draw stream of the
`(p, s)` pair. -/
def generateCostData (cal : Calendar) (today : ℤ) (days : ℕ)
    (baseRnd : String → String → ℚ) (rnd : String → String → ℕ → ℕ → ℚ) :
    List CostEntry :=
  CLOUD_PROVIDERS.flatMap (fun provider =>
    (servicesOf provider).flatMap (fun service =>
      serviceCostSeries cal today days provider service
        (baseCostOf provider (baseRnd provider service)) (rnd provider service)))

/-- One synthetic cloud asset (`CloudResource` in `mockData.ts`). -/
structure CloudResource where
  id : String
  name : String
  type : String
  provider : String
  region : String
  status : String
  size : String
  tags : List (String × String)
  monthly_cost : ℚ
  creation_date : ℤ
  last_modified : ℤ
deriving DecidableEq, Inhabited

/-- One `(resource, timestamp)` telemetry point (`UtilizationData` in
`mockData.ts`); the ISO timestamp is modelled as its `(day, hour)` pair. -/
structure UtilizationData where
  resource_id : String
  day : ℤ
  hour : ℕ
  cpu_percent : ℚ
  memory_percent : ℚ
  network_mbps : ℚ
  disk_iops : ℚ
  instance_type : String
  provider : String
deriving DecidableEq, Inhabited

/-- Whether `pat` occurs as a contiguous run at the head of `l`, the
character-level helper behind the JavaScript `String.includes` tests. -/
def prefixAt : List Char → List Char → Bool
  | [], _ => true
  | _ :: _, [] => false
  | a :: as, b :: bs => a == b && prefixAt as bs

/-- Whether `pat` occurs as a contiguous run anywhere in `l`. -/
def containsRun (pat : List Char) : List Char → Bool
  | [] => prefixAt pat []
  | c :: rest => prefixAt pat (c :: rest) || containsRun pat rest

/-- The JavaScript `s.includes(pat)` substring test. -/
def includesStr (s pat : String) : Bool := containsRun pat.data s.data

/-- The `(baseCpuUtil, baseMemoryUtil)` baseline chosen by
`generateUtilizationData` from the resource category and size tier; `rB 0` and
`rB 1` are the two `Math.random()` draws of the chosen branch. -/
def baseUtilOf (r : CloudResource) (rB : ℕ → ℚ) : ℚ × ℚ :=
  if includesStr r.type "EC2" || includesStr r.type "Virtual Machines" ||
      includesStr r.type "Compute Engine" then
    if includesStr r.size "micro" || includesStr r.size "small" then
      (50 + rB 0 * 30, 60 + rB 1 * 25)
    else if includesStr r.size "medium" || includesStr r.size "large" then
      (30 + rB 0 * 40, 40 + rB 1 * 30)
    else
      (10 + rB 0 * 30, 20 + rB 1 * 40)
  else if includesStr r.type "RDS" || includesStr r.type "SQL" ||
      includesStr r.type "Database" then
    (30 + rB 0 * 20, 60 + rB 1 * 30)
  else if includesStr r.type "S3" || includesStr r.type "Storage" then
    (5 + rB 0 * 10, 10 + rB 1 * 20)
  else
    (20 + rB 0 * 30, 30 + rB 1 * 40)

/-- One utilization sample of `generateUtilizationData` at `(day, hour)`:
business-hours and weekend factors, random jitter, clamping to `[1, 99]`
(CPU) and `[5, 99]` (memory), and the derived network/disk metrics.  `rS 0`
is the common random factor, `rS 1` the memory jitter, `rS 2` and `rS 3` the
network and disk draws. -/
def utilSample (cal : Calendar) (r : CloudResource) (baseCpu baseMem : ℚ)
    (day : ℤ) (hour : ℕ) (rS : ℕ → ℚ) : UtilizationData :=
  let hourFactor : ℚ := if 8 ≤ hour ∧ hour ≤ 18 then 6/5 else 4/5
  let weekendFactor : ℚ :=
    if cal.dayOfWeek day = 0 ∨ cal.dayOfWeek day = 6 then 3/5 else 1
  let randomFactor : ℚ := 4/5 + rS 0 * (2/5)
  let cpuRaw : ℚ := baseCpu * hourFactor * weekendFactor * randomFactor
  let memRaw : ℚ := baseMem * hourFactor * weekendFactor * (9/10 + rS 1 * (2/10))
  let cpu : ℚ := min (max cpuRaw 1) 99
  let mem : ℚ := min (max memRaw 5) 99
  { resource_id := r.id
    day := day
    hour := hour
    cpu_percent := round1 cpu
    memory_percent := round1 mem
    network_mbps := round1 (cpu * (1 + rS 2))
    disk_iops := round1 (mem * (1/2 + rS 3 * 2))
    instance_type := r.size
    provider := r.provider }

/-- `generateUtilizationData(days)`: for every resource whose status is
`"running"` (and only those), four samples per day (hours 0, 6, 12, 18) over
the trailing `days` window.  `randB r.id` feeds the baseline draws of the
resource and `randS r.id i h` the per-sample draws. -/
def generateUtilizationData (cal : Calendar) (resources : List CloudResource)
    (today : ℤ) (days : ℕ) (randB : String → ℕ → ℚ)
    (randS : String → ℕ → ℕ → ℕ → ℚ) : List UtilizationData :=
  resources.flatMap (fun r =>
    if r.status == "running" then
      let bu := baseUtilOf r (randB r.id)
      (List.range days).flatMap (fun i =>
        let day : ℤ := today - (days : ℤ) + (i : ℤ) + 1
        ([0, 6, 12, 18] : List ℕ).map (fun h =>
          utilSample cal r bu.1 bu.2 day h (randS r.id i h)))
    else [])

/-- Anomaly severity (low, medium or high in the source union type). -/
inductive Severity where
  | low
  | medium
  | high
deriving DecidableEq, Inhabited

/-- A detected cost spike (`Anomaly` in `mockData.ts`), minus the cosmetic
uuid `id` and `explanation` strings. -/
structure Anomaly where
  date : ℤ
  daily_cost : ℚ
  service : String
  cloud_provider : String
  expected_cost : ℚ
  percentage_increase : ℚ
  severity : Severity
  is_anomaly : Bool
  anomaly_score : ℚ
deriving DecidableEq, Inhabited

/-- Descending-by-`daily_cost` ordering, the comparator
`(a, b) => b.daily_cost - a.daily_cost`. -/
def costGE (a b : CostEntry) : Prop := b.daily_cost ≤ a.daily_cost

instance : DecidableRel costGE := fun a b =>
  inferInstanceAs (Decidable (b.daily_cost ≤ a.daily_cost))

/-- The stable descending-by-cost sort performed by `generateAnomalies`
(JavaScript `Array.prototype.sort` is stable, so any stable sorted
implementation models it; insertion sort is used because it evaluates in the
kernel). -/
def sortByCostDesc (l : List CostEntry) : List CostEntry := l.insertionSort costGE

/-- The prior-day lookup of `generateAnomalies`: first entry of `costData`
with the immediately preceding calendar date and the same service and
provider (`this.costData.find(...)`). -/
def prevDayOf (costData : List CostEntry) (c : CostEntry) : Option CostEntry :=
  costData.find? (fun e =>
    e.date == c.date - 1 && e.service == c.service &&
      e.cloud_provider == c.cloud_provider)

/-- The raw percentage increase
`(costEntry.daily_cost / prevDayCost.daily_cost - 1) * 100`. -/
def pctIncrease (c prev : CostEntry) : ℚ := (c.daily_cost / prev.daily_cost - 1) * 100

/-- The severity ladder (high above 100, medium above 50, low otherwise),
applied to the raw (unrounded) percentage increase. -/
def severityOf (pct : ℚ) : Severity :=
  if 100 < pct then .high else if 50 < pct then .medium else .low

/-- The anomaly record pushed by `generateAnomalies` for candidate `c` with
prior-day entry `prev`; `score` is the `0.8 + Math.random() * 0.2` draw. -/
def mkAnomaly (c prev : CostEntry) (score : ℚ) : Anomaly :=
  { date := c.date
    daily_cost := c.daily_cost
    service := c.service
    cloud_provider := c.cloud_provider
    expected_cost := prev.daily_cost
    percentage_increase := round1 (pctIncrease c prev)
    severity := severityOf (pctIncrease c prev)
    is_anomaly := true
    anomaly_score := score }

/-- The candidate scan of `generateAnomalies` over the cost-descending
prefix: a candidate with no prior-day entry is skipped silently, one whose
raw increase is at most 25% is dropped, the rest are emitted in scan order.
`rand k` feeds the `anomaly_score` draw of the candidate at scan position
`k`. -/
def anomalyScan (costData : List CostEntry) (rand : ℕ → ℚ) :
    List CostEntry → ℕ → List Anomaly
  | [], _ => []
  | c :: rest, k =>
    match prevDayOf costData c with
    | some prev =>
      if 25 < pctIncrease c prev then
        mkAnomaly c prev (4/5 + rand k * (1/5)) :: anomalyScan costData rand rest (k + 1)
      else anomalyScan costData rand rest (k + 1)
    | none => anomalyScan costData rand rest (k + 1)

/-- `generateAnomalies(count)`: scan the `2 * count` highest-cost entries and
keep at most `count` anomalies, in cost-descending candidate order. -/
def generateAnomalies (costData : List CostEntry) (count : ℕ) (rand : ℕ → ℚ) :
    List Anomaly :=
  (anomalyScan costData rand ((sortByCostDesc costData).take (2 * count)) 0).take count

/-- One date/spend point of a budget history sequence. -/
structure BudgetHistoryEntry where
  date : ℤ
  spend : ℚ
deriving DecidableEq, Inhabited

/-- The `0.9 + Math.random() * 0.2` jitter applied to every budget-history
spend, with `rand j` the draw of history step `j`. -/
def jitter (rand : ℕ → ℚ) (j : ℕ) : ℚ := 9/10 + rand j * (2/10)

/-- The spend recorded at history step `j` by both history loops of
`generateBudgets`: `budgetAmount * min(j/5, P) * jitter`, rounded to cents,
where `P` is the elapsed fraction of the budget period. -/
def rampSpend (budgetAmount P : ℚ) (rand : ℕ → ℚ) (j : ℕ) : ℚ :=
  round2 (budgetAmount * min ((j : ℚ) / 5) P * jitter rand j)

/-- The monthly-budget history loop of `generateBudgets` (first sub-pass):
five steps `j = 1..5` with progress `min(j/5, currentDay/daysInMonth)`, day
of month `ceil(progress * daysInMonth)`, jittered proportional spend, and the
entry kept only when its date is not in the future. -/
def monthlyHistory (budgetAmount : ℚ) (daysInMonth currentDay : ℕ)
    (rand : ℕ → ℚ) : List BudgetHistoryEntry :=
  let currentProgress : ℚ := (currentDay : ℚ) / (daysInMonth : ℚ)
  (List.range 5).filterMap (fun j0 =>
    let j : ℕ := j0 + 1
    let progress : ℚ := min ((j : ℚ) / 5) currentProgress
    let day : ℤ := ⌈progress * (daysInMonth : ℚ)⌉
    if day ≤ (currentDay : ℤ) then
      some { date := day, spend := rampSpend budgetAmount currentProgress rand j }
    else none)

/-- The quarterly-budget history loop of `generateBudgets` (second sub-pass):
`totalDays` is the quarter length in days and `nowDiff` the (fractional)
number of days elapsed since `startDay`; steps are kept while
`startDay + ceil(entryProgress * totalDays)` is not in the future. -/
def quarterlyHistory (budgetAmount : ℚ) (totalDays nowDiff : ℚ) (startDay : ℤ)
    (rand : ℕ → ℚ) : List BudgetHistoryEntry :=
  let daysPassed : ℚ := min nowDiff totalDays
  let progress : ℚ := daysPassed / totalDays
  (List.range 5).filterMap (fun j0 =>
    let j : ℕ := j0 + 1
    let entryProgress : ℚ := min ((j : ℚ) / 5) progress
    let offset : ℤ := ⌈entryProgress * totalDays⌉
    if (offset : ℚ) ≤ nowDiff then
      some { date := startDay + offset, spend := rampSpend budgetAmount progress rand j }
    else none)

/-- First element of a list, with fallback: the JavaScript `arr[0]` access on
an array known to be nonempty. -/
def firstOr {α : Type} (d : α) : List α → α
  | [] => d
  | a :: _ => a

/-- Last element of a list, with fallback: the JavaScript
`arr[arr.length - 1]` access. -/
def lastOr {α : Type} (d : α) : List α → α
  | [] => d
  | a :: t => lastOr a t

/-- Descending-by-`date` ordering, the comparator
`(a, b) => new Date(b.date).getTime() - new Date(a.date).getTime()`. -/
def dateGE (a b : CostEntry) : Prop := b.date ≤ a.date

instance : DecidableRel dateGE := fun a b =>
  inferInstanceAs (Decidable (b.date ≤ a.date))

/-- The stable descending-by-date sort at the head of `generateForecastData`. -/
def sortByDateDesc (l : List CostEntry) : List CostEntry := l.insertionSort dateGE

/-- `sortedData[0]`, the most recent entry (anchor) of the projector. -/
def lastEntryOf (l : List CostEntry) : CostEntry := firstOr default (sortByDateDesc l)

/-- `recentData[recentData.length - 1]`, the oldest entry of the 30-entry
recent window `sortedData.slice(0, 30)`. -/
def oldestRecentOf (l : List CostEntry) : CostEntry :=
  lastOr default ((sortByDateDesc l).take 30)

/-- The `daysDifference` divisor of the daily-trend computation of the projector:
the day distance from the oldest recent entry to the anchor. -/
def daysDifferenceOf (l : List CostEntry) : ℤ :=
  (lastEntryOf l).date - (oldestRecentOf l).date

/-- Rounding to two decimal digits over the reals, the `ℝ` counterpart of
`round2`. -/
noncomputable def round2R (x : ℝ) : ℝ := (⌊x * 100 + 1/2⌋ : ℚ) / 100

/-- A JavaScript double as consumed by the projector: a finite value
(idealized as an exact real, ignoring binary rounding and the `-0` sign),
one of the two infinities, or `NaN`.  The projector is the one component of
this code whose arithmetic can leave the finite range — `daysDifference` can
be zero — so its numbers are modelled by this type rather than by `ℝ`. -/
inductive JsNum where
  | real (x : ℝ)
  | posInf
  | negInf
  | nan
deriving Inhabited

/-- Whether a real number is an integer, the test ECMA-262 applies to the
exponent of `Math.pow` on a negative base. -/
def isIntR (y : ℝ) : Prop := ∃ n : ℤ, y = (n : ℝ)

/-- Whether a real number is an odd integer (the `Math.pow` sign rule for a
`-Infinity` base). -/
def isOddIntR (y : ℝ) : Prop := ∃ n : ℤ, Odd n ∧ y = (n : ℝ)

section
open Classical

/-- JavaScript division, per the ECMA-262 table: division by (positive) zero
gives a signed infinity, `0 / 0` and `Infinity / Infinity` give `NaN`. -/
noncomputable def jsDiv (a b : JsNum) : JsNum :=
  match a, b with
  | .nan, _ => .nan
  | _, .nan => .nan
  | .posInf, .posInf => .nan
  | .posInf, .negInf => .nan
  | .negInf, .posInf => .nan
  | .negInf, .negInf => .nan
  | .posInf, .real t => if t < 0 then .negInf else .posInf
  | .negInf, .real t => if t < 0 then .posInf else .negInf
  | .real _, .posInf => .real 0
  | .real _, .negInf => .real 0
  | .real t, .real u =>
    if u = 0 then (if t = 0 then .nan else if 0 < t then .posInf else .negInf)
    else .real (t / u)

/-- JavaScript multiplication: `NaN` is absorbing, `Infinity * 0` is `NaN`,
otherwise infinities keep the sign of the finite factor. -/
noncomputable def jsMul (a b : JsNum) : JsNum :=
  match a, b with
  | .nan, _ => .nan
  | _, .nan => .nan
  | .posInf, .posInf => .posInf
  | .posInf, .negInf => .negInf
  | .negInf, .posInf => .negInf
  | .negInf, .negInf => .posInf
  | .posInf, .real t => if t = 0 then .nan else if 0 < t then .posInf else .negInf
  | .real t, .posInf => if t = 0 then .nan else if 0 < t then .posInf else .negInf
  | .negInf, .real t => if t = 0 then .nan else if 0 < t then .negInf else .posInf
  | .real t, .negInf => if t = 0 then .nan else if 0 < t then .negInf else .posInf
  | .real t, .real u => .real (t * u)

/-- JavaScript subtraction: `NaN` is absorbing and same-signed infinities
cancel to `NaN`. -/
noncomputable def jsSub (a b : JsNum) : JsNum :=
  match a, b with
  | .nan, _ => .nan
  | _, .nan => .nan
  | .posInf, .posInf => .nan
  | .posInf, _ => .posInf
  | .negInf, .negInf => .nan
  | .negInf, _ => .negInf
  | .real _, .posInf => .negInf
  | .real _, .negInf => .posInf
  | .real t, .real u => .real (t - u)

noncomputable instance : Sub JsNum := ⟨jsSub⟩

/-- The JavaScript `<=` comparison: any comparison against `NaN` is false,
`-Infinity` is below and `Infinity` above everything, and an infinity
compares equal to itself. -/
def jsLe : JsNum → JsNum → Prop
  | .nan, _ => False
  | _, .nan => False
  | .negInf, _ => True
  | .real _, .posInf => True
  | .posInf, .posInf => True
  | .posInf, _ => False
  | .real t, .real u => t ≤ u
  | .real _, .negInf => False

instance : LE JsNum := ⟨jsLe⟩

/-- `Math.pow`, per the ECMA-262 `Number::exponentiate` table (modulo the
`-0` sign): a `NaN` exponent gives `NaN`, a zero exponent gives 1, a base of
absolute value 1 raised to an infinite exponent gives `NaN` — the case the
projector hits when `daysDifference` is zero — a negative finite base with a
non-integer exponent gives `NaN`, and the remaining finite cases are exact
real exponentiation. -/
noncomputable def jsPow (b e : JsNum) : JsNum :=
  match e with
  | .nan => .nan
  | .posInf =>
    match b with
    | .nan => .nan
    | .posInf => .posInf
    | .negInf => .posInf
    | .real t => if t = 1 ∨ t = -1 then .nan else if 1 < |t| then .posInf else .real 0
  | .negInf =>
    match b with
    | .nan => .nan
    | .posInf => .real 0
    | .negInf => .real 0
    | .real t => if t = 1 ∨ t = -1 then .nan else if 1 < |t| then .real 0 else .posInf
  | .real y =>
    if y = 0 then .real 1
    else
      match b with
      | .nan => .nan
      | .posInf => if 0 < y then .posInf else .real 0
      | .negInf =>
        if 0 < y then (if isOddIntR y then .negInf else .posInf) else .real 0
      | .real t =>
        if t = 0 then (if 0 < y then .real 0 else .posInf)
        else if t < 0 ∧ ¬ isIntR y then .nan
        else .real (t ^ y)

/-- `parseFloat(x.toFixed(2))` on a double: finite values round to cents,
`Infinity` and `NaN` survive the string round-trip unchanged. -/
noncomputable def round2J : JsNum → JsNum
  | .real x => .real (round2R x)
  | .posInf => .posInf
  | .negInf => .negInf
  | .nan => .nan

end

/-- The anchor cost `lastCost` of the projector, as a real number. -/
noncomputable def lastCostOf (l : List CostEntry) : ℝ := ((lastEntryOf l).daily_cost : ℝ)

/-- The trend ratio `lastCost / oldestRecentCost` of the projector, a
JavaScript division. -/
noncomputable def trendFactorOf (l : List CostEntry) : JsNum :=
  jsDiv (.real (lastCostOf l)) (.real (((oldestRecentOf l).daily_cost : ℚ) : ℝ))

/-- The compounding daily trend
`Math.pow(trendFactor, 1 / daysDifference)` of the projector.  When
`daysDifference` is zero the inner division yields `Infinity`, and for the
trend factor 1 of a degenerate window (e.g. any single-entry series)
`Math.pow` then yields `NaN`. -/
noncomputable def dailyTrendOf (l : List CostEntry) : JsNum :=
  jsPow (trendFactorOf l) (jsDiv (.real 1) (.real ((daysDifferenceOf l : ℤ) : ℝ)))

/-- The raw (unrounded) forecast value of loop step `i ≥ 1`:
`lastCost * Math.pow(dailyTrend, i)` times the `0.95 + Math.random() * 0.1`
random factor drawn from `rand i`. -/
noncomputable def forecastValueAt (lastCost dailyTrend : ℝ) (rand : ℕ → ℚ)
    (i : ℕ) : ℝ :=
  lastCost * dailyTrend ^ i * (95/100 + (rand i : ℚ) * (1/10))

/-- The relative confidence-band half-width of loop step `i ≥ 1`:
`0.05 + (i / days) * 0.15`. -/
noncomputable def uncertaintyAt (days i : ℕ) : ℝ :=
  5/100 + ((i : ℝ) / (days : ℝ)) * (15/100)

/-- The raw forecast value of loop step `i ≥ 1` as the host computes it:
`lastCost * Math.pow(dailyTrend, i)` times the random factor, over JavaScript
numbers so that a `NaN` daily trend propagates.  On a finite daily trend it
agrees with `forecastValueAt` (`forecastValueJ_real`). -/
noncomputable def forecastValueJ (lastCost : ℝ) (dailyTrend : JsNum)
    (rand : ℕ → ℚ) (i : ℕ) : JsNum :=
  jsMul (jsMul (.real lastCost) (jsPow dailyTrend (.real (i : ℝ))))
    (.real (95/100 + ((rand i : ℚ) : ℝ) * (1/10)))

/-- A projected future cost series (`ForecastData` in `mockData.ts`); the
numeric sequences are JavaScript numbers, since the projector can produce
non-finite values. -/
structure ForecastData where
  forecast_dates : List ℤ
  forecast_values : List JsNum
  lower_bound : List JsNum
  upper_bound : List JsNum
  confidence_level : ℝ
deriving Inhabited

/-- `generateForecastData(costData, days)`, the Forecast Projector: throws
(`Except.error`) on an empty series, otherwise anchors at the most recent
entry, derives the compounding daily trend
`(lastCost / oldestRecentCost) ^ (1 / daysDifference)` and emits `days`
trend-projected values with linearly widening confidence bounds, each rounded
to cents, at confidence level 0.9. -/
noncomputable def generateForecastData (costData : List CostEntry) (days : ℕ)
    (rand : ℕ → ℚ) : Except String ForecastData :=
  if costData.isEmpty then
    Except.error "No cost data available for forecasting"
  else
    Except.ok
      { forecast_dates := (List.range days).map (fun i0 : ℕ =>
          (lastEntryOf costData).date + ((i0 : ℤ) + 1))
        forecast_values := (List.range days).map (fun i0 =>
          round2J (forecastValueJ (lastCostOf costData) (dailyTrendOf costData)
            rand (i0 + 1)))
        lower_bound := (List.range days).map (fun i0 =>
          round2J (jsMul (forecastValueJ (lastCostOf costData) (dailyTrendOf costData)
            rand (i0 + 1)) (.real (1 - uncertaintyAt days (i0 + 1)))))
        upper_bound := (List.range days).map (fun i0 =>
          round2J (jsMul (forecastValueJ (lastCostOf costData) (dailyTrendOf costData)
            rand (i0 + 1)) (.real (1 + uncertaintyAt days (i0 + 1)))))
        confidence_level := 9/10 }

/-- The successful result of the projector, with an inert default on the (empty
input) error path; lets theorems speak about the returned `ForecastData`
without an existential over `Except`. -/
noncomputable def forecastD (costData : List CostEntry) (days : ℕ)
    (rand : ℕ → ℚ) : ForecastData :=
  ((generateForecastData costData days rand).toOption).getD default

/-- One point of the mock forecast / budget-exceed pipeline of
`forecastService.ts`. -/
structure ForecastPoint where
  date : ℤ
  predicted_cost : ℚ
  lower_bound : ℚ
  upper_bound : ℚ
deriving DecidableEq, Inhabited

/-- The day-by-day loop of `createMockForecast`: `n` remaining steps, `k` the
current draw index, threading the mutable `lastDate` and `currentCost`. -/
def mockForecastLoop (growthRate avgCost : ℚ) (rand : ℕ → ℚ) :
    ℕ → ℕ → ℤ → ℚ → List ForecastPoint
  | 0, _, _, _ => []
  | n + 1, k, date, cost =>
    let date2 : ℤ := date + 1
    let cost2 : ℚ := cost * (1 + growthRate) + (rand k * avgCost * (1/10) - avgCost * (1/20))
    { date := date2
      predicted_cost := max 0 cost2
      lower_bound := max 0 (cost2 * (8/10))
      upper_bound := cost2 * (12/10) } ::
      mockForecastLoop growthRate avgCost rand n (k + 1) date2 cost2

/-- `createMockForecast(costData, days)` from `forecastService.ts`: returns
the empty forecast for fewer than 5 points, otherwise extrapolates the
half-window trend of the last 7 entries for `days` steps. -/
def createMockForecast (costData : List CostEntry) (days : ℕ) (rand : ℕ → ℚ) :
    List ForecastPoint :=
  if costData.length < 5 then []
  else
    let recentCosts := costData.drop (costData.length - 7)
    let avgCost : ℚ := ((recentCosts.map (·.daily_cost)).sum) / (recentCosts.length : ℚ)
    let firstHalf := recentCosts.take (recentCosts.length / 2)
    let secondHalf := recentCosts.drop (recentCosts.length / 2)
    let firstHalfAvg : ℚ := ((firstHalf.map (·.daily_cost)).sum) / (firstHalf.length : ℚ)
    let secondHalfAvg : ℚ := ((secondHalf.map (·.daily_cost)).sum) / (secondHalf.length : ℚ)
    let trendFactor : ℚ := secondHalfAvg / firstHalfAvg
    let growthRate : ℚ :=
      if 1 < trendFactor then (trendFactor - 1) * (7/10) else (trendFactor - 1) * (5/10)
    mockForecastLoop growthRate avgCost rand days 0 (lastOr default costData).date avgCost

/-- The slice of the budget interface consumed by `checkBudgetExceed`; the
`endDate` is a (possibly fractional) day number, matching the millisecond
arithmetic of the source. -/
structure Budget where
  id : String
  name : String
  amount : ℚ
  currentSpend : ℚ
  endDate : ℚ
deriving DecidableEq, Inhabited

/-- The result record of `checkBudgetExceed`. -/
structure BudgetForecastCheck where
  budgetId : String
  budgetName : String
  currentAmount : ℚ
  forecastedAmount : ℚ
  forecastDate : ℚ
  percentageOfBudget : ℚ
  willExceed : Bool
  projectedExceedDate : Option ℤ
  confidenceLevel : String
deriving DecidableEq, Inhabited

/-- JavaScript `arr.slice(0, e)` with a possibly negative end index, which
counts from the end of the array. -/
def jsSliceTo {α : Type} (l : List α) (e : ℤ) : List α :=
  l.take (if e < 0 then ((l.length : ℤ) + e).toNat else e.toNat)

/-- The projected-exceed-date loop of `checkBudgetExceed`: the date of the
first forecast point at which the accumulated predicted cost reaches the
remaining budget. -/
def firstExceedDate (remaining : ℚ) : ℚ → List ForecastPoint → Option ℤ
  | _, [] => none
  | cum, p :: rest =>
    let cum2 := cum + p.predicted_cost
    if remaining ≤ cum2 then some p.date else firstExceedDate remaining cum2 rest

/-- `checkBudgetExceed(budget, forecast)` from `forecastService.ts`: `none`
models the `null` returned when the budget or forecast is missing or the
forecast is empty; `now` is the current (fractional) day number, the model of
`new Date()`. -/
def checkBudgetExceed (budget : Option Budget)
    (forecast : Option (List ForecastPoint)) (now : ℚ) : Option BudgetForecastCheck :=
  match budget, forecast with
  | some b, some f =>
    if f.length = 0 then none
    else
      let remainingDaysCount : ℤ := ⌈b.endDate - now⌉
      let relevantForecast := jsSliceTo f (min remainingDaysCount (f.length : ℤ))
      let forecastedAdditionalSpend : ℚ := (relevantForecast.map (·.predicted_cost)).sum
      let forecastedTotalSpend : ℚ := b.currentSpend + forecastedAdditionalSpend
      let willExceed : Bool := decide (b.amount < forecastedTotalSpend)
      some
        { budgetId := b.id
          budgetName := b.name
          currentAmount := b.currentSpend
          forecastedAmount := forecastedTotalSpend
          forecastDate := now
          percentageOfBudget := forecastedTotalSpend / b.amount * 100
          willExceed := willExceed
          projectedExceedDate :=
            if willExceed then
              firstExceedDate (b.amount - b.currentSpend) 0 relevantForecast
            else none
          confidenceLevel := if willExceed then "high" else "medium" }
  | _, _ => none

/-- The grouping dimension of `getCostTimeSeries`. -/
inductive GroupBy where
  | provider
  | service
  | daily
deriving DecidableEq

/-- One named series of `getCostTimeSeries`, its data aligned to the
timestamps. -/
structure SeriesEntry where
  name : String
  data : List ℚ
deriving DecidableEq, Inhabited

/-- The `{timestamps, series}` result shape of `getCostTimeSeries`. -/
structure TimeSeriesResult where
  timestamps : List ℤ
  series : List SeriesEntry
deriving DecidableEq, Inhabited

/-- Insertion-ordered deduplication, the iteration order of a JavaScript
`Set` filled by a forward scan. -/
def dedupFirst (l : List String) : List String :=
  l.foldl (fun acc s => if s ∈ acc then acc else acc ++ [s]) []

/-- The per-date cost aggregation shared by the three branches of
`getCostTimeSeries`: the summed `daily_cost` of the entries of `filtered`
selected by `sel` on date `d`, rounded to cents. -/
def dateTotal (filtered : List CostEntry) (sel : CostEntry → Bool) (d : ℤ) : ℚ :=
  round2 (((filtered.filter (fun e => e.date == d && sel e)).map (·.daily_cost)).sum)

/-- `getCostTimeSeries(days, groupBy)`: timestamps are the `days + 1`
calendar days from `today - days` through `today` (the inclusive source
`while` walk), and the series are grouped by provider, by service (insertion
order of first appearance) or as a single Total Cost daily total. -/
def getCostTimeSeries (costData : List CostEntry) (today : ℤ) (days : ℕ)
    (groupBy : GroupBy) : TimeSeriesResult :=
  let startDate : ℤ := today - (days : ℤ)
  let filteredData := costData.filter (fun e => startDate ≤ e.date && e.date ≤ today)
  let dateStrings : List ℤ := (List.range (days + 1)).map (fun i : ℕ => startDate + (i : ℤ))
  match groupBy with
  | .provider =>
    { timestamps := dateStrings
      series := CLOUD_PROVIDERS.map (fun p =>
        { name := p
          data := dateStrings.map (dateTotal filteredData (fun e => e.cloud_provider == p)) }) }
  | .service =>
    let services := dedupFirst (filteredData.map (·.service))
    { timestamps := dateStrings
      series := services.map (fun s =>
        { name := s
          data := dateStrings.map (dateTotal filteredData (fun e => e.service == s)) }) }
  | .daily =>
    { timestamps := dateStrings
      series := [{ name := "Total Cost"
                   data := dateStrings.map (dateTotal filteredData (fun _ => true)) }] }

/-! Helper lemmas about the embedded operations. -/

instance : IsTotal CostEntry dateGE := ⟨fun a b => le_total b.date a.date⟩

instance : IsTrans CostEntry dateGE := ⟨fun _ _ _ hab hbc => le_trans hbc hab⟩

lemma firstOr_mem {α : Type} (d : α) {l : List α} (h : l ≠ []) : firstOr d l ∈ l := by
  cases l with
  | nil => exact absurd rfl h
  | cons a t => simp [firstOr]

lemma lastOr_mem {α : Type} (d : α) {l : List α} (h : l ≠ []) : lastOr d l ∈ l := by
  induction l generalizing d with
  | nil => exact absurd rfl h
  | cons a t ih =>
    cases t with
    | nil => simp [lastOr]
    | cons b u =>
      rw [lastOr]
      exact List.mem_cons_of_mem a (ih a (by simp))

lemma mem_sortByDateDesc {a : CostEntry} {l : List CostEntry} :
    a ∈ sortByDateDesc l ↔ a ∈ l :=
  (List.perm_insertionSort dateGE l).mem_iff

lemma sortByDateDesc_ne_nil {l : List CostEntry} (h : l ≠ []) :
    sortByDateDesc l ≠ [] := by
  intro hnil
  have hperm := List.perm_insertionSort dateGE l
  rw [sortByDateDesc] at hnil
  rw [hnil] at hperm
  exact h (hperm.symm.eq_nil)

lemma sorted_sortByDateDesc (l : List CostEntry) :
    List.Sorted dateGE (sortByDateDesc l) :=
  List.sorted_insertionSort dateGE l

lemma round2_mono {a b : ℚ} (h : a ≤ b) : round2 a ≤ round2 b := by
  unfold round2
  have hf : ⌊a * 100 + 1/2⌋ ≤ ⌊b * 100 + 1/2⌋ := Int.floor_le_floor (by linarith)
  have : ((⌊a * 100 + 1/2⌋ : ℤ) : ℚ) ≤ ((⌊b * 100 + 1/2⌋ : ℤ) : ℚ) := by exact_mod_cast hf
  linarith

lemma round2R_mono {a b : ℝ} (h : a ≤ b) : round2R a ≤ round2R b := by
  unfold round2R
  have hf : ⌊a * 100 + 1/2⌋ ≤ ⌊b * 100 + 1/2⌋ := Int.floor_le_floor (by linarith)
  have : ((⌊a * 100 + 1/2⌋ : ℤ) : ℝ) ≤ ((⌊b * 100 + 1/2⌋ : ℤ) : ℝ) := by exact_mod_cast hf
  have h2 : ((⌊a * 100 + 1/2⌋ : ℤ) : ℚ) ≤ ((⌊b * 100 + 1/2⌋ : ℤ) : ℚ) := by exact_mod_cast hf
  have h3 : (((⌊a * 100 + 1/2⌋ : ℤ) : ℚ) : ℝ) ≤ (((⌊b * 100 + 1/2⌋ : ℤ) : ℚ) : ℝ) := by
    exact_mod_cast h2
  linarith

lemma round1_ge_of_gt25 {q : ℚ} (h : 25 < q) : 25 ≤ round1 q := by
  unfold round1
  have hf : (250 : ℤ) ≤ ⌊q * 10 + 1/2⌋ := Int.le_floor.2 (by push_cast; linarith)
  have : ((250 : ℤ) : ℚ) ≤ ((⌊q * 10 + 1/2⌋ : ℤ) : ℚ) := by exact_mod_cast hf
  linarith

lemma getElemBang_range_map {α : Type} [Inhabited α] (f : ℕ → α) (n i : ℕ)
    (h : i < n) : ((List.range n).map f)[i]! = f i := by
  rw [getElem!_pos ((List.range n).map f) i (by simpa using h)]
  simp [h]

lemma mockForecastLoop_length (growthRate avgCost : ℚ) (rand : ℕ → ℚ) :
    ∀ (n k : ℕ) (date : ℤ) (cost : ℚ),
      (mockForecastLoop growthRate avgCost rand n k date cost).length = n := by
  intro n
  induction n with
  | zero => intro k date cost; rfl
  | succ m ih =>
    intro k date cost
    rw [mockForecastLoop]
    simp [ih]

/-- A fixed all-zero draw stream, a realizable output of `Math.random()`. -/
def randZero : ℕ → ℚ := fun _ => 0

/-- A fixed all-one-half draw stream, a realizable output of `Math.random()`. -/
def randHalf : ℕ → ℚ := fun _ => 1/2

/-- A fully inert concrete calendar for witnesses. -/
def calZero : Calendar :=
  { dayOfWeek := fun _ => 1, dayOfMonth := fun _ => 1, daysInMonth := fun _ => 30,
    month := fun _ => 0, year := fun _ => 0 }

/-- Concrete cost entry: 100 dollars on day 0. -/
def eA0 : CostEntry := { date := 0, daily_cost := 100, service := "EC2", cloud_provider := "AWS" }

/-- Concrete cost entry: 140 dollars on day 1 (a 40% jump over `eA0`). -/
def eB0 : CostEntry := { date := 1, daily_cost := 140, service := "EC2", cloud_provider := "AWS" }

/-- Concrete cost entry: 125.04 dollars on day 1 (a raw 25.04% jump over
`eA0`, which rounds to a recorded increase of exactly 25.0). -/
def eC0 : CostEntry := { date := 1, daily_cost := 3126/25, service := "EC2", cloud_provider := "AWS" }

/-- Concrete cost entry: 10 dollars on day 1 (a steep drop after `eA0`). -/
def eD0 : CostEntry := { date := 1, daily_cost := 10, service := "EC2", cloud_provider := "AWS" }

/-- C9. Calling `getCostTimeSeries` with 7 days and daily grouping on any cost series returns 8
timestamps (7 days back through today, inclusive) and exactly one series,
named Total Cost. -/
theorem c9_daily_time_series_shape (costData : List CostEntry) (today : ℤ) :
    (getCostTimeSeries costData today 7 .daily).timestamps.length = 8 ∧
    (getCostTimeSeries costData today 7 .daily).series.length = 1 ∧
    (getCostTimeSeries costData today 7 .daily).series.map (·.name) = ["Total Cost"] :=
  ⟨rfl, rfl, rfl⟩

/-- C10. `checkBudgetExceed` returns `null` exactly when the budget is
missing or the forecast is missing or empty; with a budget and a nonempty
forecast it always computes a verdict. -/
theorem c10_budget_exceed_null_cases (budget : Option Budget)
    (forecast : Option (List ForecastPoint)) (now : ℚ) :
    checkBudgetExceed budget forecast now = none ↔
      budget = none ∨ forecast = none ∨ forecast = some [] := by
  rcases budget with _ | b
  · simp [checkBudgetExceed]
  · rcases forecast with _ | f
    · simp [checkBudgetExceed]
    · rcases f with _ | ⟨p, t⟩ <;> simp [checkBudgetExceed]

/-- C2 counterexample. The claim says the Forecast Projector fails with an
error whenever its input is too short (fewer than 5 points); the code throws
only on the empty series: a one-entry series already returns a
`ForecastResult` without error. -/
theorem c2_counterexample :
    ([eA0] : List CostEntry).length < 5 ∧
      (generateForecastData [eA0] 30 randZero).isOk = true := by
  refine ⟨by decide, ?_⟩
  unfold generateForecastData
  rw [if_neg (by simp)]
  rfl

/-- C2 (amended). `generateForecastData` errors exactly on the empty series
and returns a result for every non-empty series, however short; the 5-point
minimum belongs to `createMockForecast`, which returns the empty forecast
(not an error) below 5 points and a `days`-length forecast from 5 points
up. -/
theorem c2_amended_insufficient_data :
    (∀ (days : ℕ) (rand : ℕ → ℚ),
      generateForecastData [] days rand =
        Except.error "No cost data available for forecasting") ∧
    (∀ (costData : List CostEntry) (days : ℕ) (rand : ℕ → ℚ), costData ≠ [] →
      (generateForecastData costData days rand).isOk = true) ∧
    (∀ (costData : List CostEntry) (days : ℕ) (rand : ℕ → ℚ), costData.length < 5 →
      createMockForecast costData days rand = []) ∧
    (∀ (costData : List CostEntry) (days : ℕ) (rand : ℕ → ℚ), 5 ≤ costData.length →
      (createMockForecast costData days rand).length = days) := by
  refine ⟨?_, ?_, ?_, ?_⟩
  · intro days rand
    simp [generateForecastData]
  · intro costData days rand h
    have hne : costData.isEmpty = false := by simpa [List.isEmpty_iff] using h
    unfold generateForecastData
    rw [if_neg (by simp [hne])]
    rfl
  · intro costData days rand h
    simp [createMockForecast, h]
  · intro costData days rand h
    unfold createMockForecast
    rw [if_neg (by omega)]
    simp [mockForecastLoop_length]

/-- Five concrete cost entries, the shortest series accepted by
`createMockForecast`. -/
def cd5 : List CostEntry := [eA0, eA0, eA0, eA0, eB0]

/-- C2 witness: the amended statement applied to concrete series. -/
theorem c2_witness :
    generateForecastData [] 3 randZero =
        Except.error "No cost data available for forecasting" ∧
      (generateForecastData [eA0] 3 randZero).isOk = true ∧
      createMockForecast [eA0] 3 randZero = [] ∧
      (createMockForecast cd5 3 randZero).length = 3 :=
  ⟨c2_amended_insufficient_data.1 3 randZero,
   c2_amended_insufficient_data.2.1 [eA0] 3 randZero (by decide),
   c2_amended_insufficient_data.2.2.1 [eA0] 3 randZero (by decide),
   c2_amended_insufficient_data.2.2.2 cd5 3 randZero (by decide)⟩

/-- C8 counterexample. The claim says the daily-trend computation never
divides by zero on a non-empty series; on a one-entry series the anchor and
the oldest recent entry coincide, so the `daysDifference` divisor is zero. -/
theorem c8_counterexample :
    ([eA0] : List CostEntry) ≠ [] ∧ daysDifferenceOf [eA0] = 0 := by
  refine ⟨by decide, by decide⟩

/-- C8 (amended). On every non-empty series the `daysDifference` divisor of
the daily trend of the projector is nonnegative, and it vanishes (the sole
division-by-zero hazard of the projector, reachable e.g. by a one-entry
series) exactly when the anchor entry and the oldest entry of the 30-entry
recent window share one calendar date; all other arithmetic in the projector
is total. -/
theorem c8_amended_days_difference (costData : List CostEntry)
    (h : costData ≠ []) :
    0 ≤ daysDifferenceOf costData ∧
      (daysDifferenceOf costData = 0 ↔
        (lastEntryOf costData).date = (oldestRecentOf costData).date) := by
  constructor
  · rcases hs : sortByDateDesc costData with _ | ⟨x, xs⟩
    · exact absurd hs (sortByDateDesc_ne_nil h)
    · have hsort := sorted_sortByDateDesc costData
      rw [hs] at hsort
      have hx : ∀ y ∈ xs, y.date ≤ x.date :=
        fun y hy => (List.pairwise_cons.1 hsort).1 y hy
      have hlast : lastEntryOf costData = x := by
        simp only [lastEntryOf, hs, firstOr]
      have hmem : oldestRecentOf costData ∈ x :: xs := by
        simp only [oldestRecentOf, hs]
        have h30 : (x :: xs).take 30 ≠ [] := by simp [List.take_eq_nil_iff]
        exact List.take_subset 30 (x :: xs) (lastOr_mem default h30)
      rw [daysDifferenceOf, hlast]
      rcases List.mem_cons.1 hmem with he | hm
      · rw [he]
        omega
      · have := hx _ hm
        omega
  · unfold daysDifferenceOf
    omega

/-- C8 witness: the amended statement on a concrete two-entry series. -/
theorem c8_witness :
    0 ≤ daysDifferenceOf [eA0, eB0] ∧
      (daysDifferenceOf [eA0, eB0] = 0 ↔
        (lastEntryOf [eA0, eB0]).date = (oldestRecentOf [eA0, eB0]).date) :=
  c8_amended_days_difference [eA0, eB0] (by decide)

lemma anomalyScan_shape (costData : List CostEntry) (rand : ℕ → ℚ) :
    ∀ (l : List CostEntry) (k : ℕ) (a : Anomaly),
      a ∈ anomalyScan costData rand l k →
      ∃ c prev score, prevDayOf costData c = some prev ∧
        25 < pctIncrease c prev ∧ a = mkAnomaly c prev score := by
  intro l
  induction l with
  | nil =>
    intro k a ha
    simp [anomalyScan] at ha
  | cons c rest ih =>
    intro k a ha
    rcases hp : prevDayOf costData c with _ | prev
    · simp only [anomalyScan, hp] at ha
      exact ih (k + 1) a ha
    · simp only [anomalyScan, hp] at ha
      by_cases hpct : 25 < pctIncrease c prev
      · rw [if_pos hpct] at ha
        rcases List.mem_cons.1 ha with rfl | hmem
        · exact ⟨c, prev, _, hp, hpct, rfl⟩
        · exact ih (k + 1) a hmem
      · rw [if_neg hpct] at ha
        exact ih (k + 1) a ha

/-- Consistency of an emitted anomaly with its source cost data: the recorded
increase is at least 25 (it is the one-decimal rounding of a raw increase
strictly above 25), the expected cost is the cost of the prior-day entry for the
same service and provider, and the severity ladder is applied to the raw
increase. -/
def anomalyConsistent (costData : List CostEntry) (a : Anomaly) : Prop :=
  25 ≤ a.percentage_increase ∧
  ∃ prev ∈ costData,
    prev.date = a.date - 1 ∧ prev.service = a.service ∧
    prev.cloud_provider = a.cloud_provider ∧ a.expected_cost = prev.daily_cost ∧
    25 < (a.daily_cost / a.expected_cost - 1) * 100 ∧
    a.percentage_increase = round1 ((a.daily_cost / a.expected_cost - 1) * 100) ∧
    a.severity = severityOf ((a.daily_cost / a.expected_cost - 1) * 100)

/-- C1 (amended). Every anomaly emitted by `generateAnomalies` records a
`percentage_increase` of at least 25 — the raw day-over-day increase is
strictly above 25%, but the recorded value is rounded to one decimal and can
land exactly on 25.0 — an `expected_cost` equal to the prior-day entry cost
for the same service and provider, and a severity of high / medium / low
according to whether the raw increase exceeds 100% / 50% / neither. -/
theorem c1_amended_anomaly_fields (costData : List CostEntry) (count : ℕ)
    (rand : ℕ → ℚ) (a : Anomaly)
    (ha : a ∈ generateAnomalies costData count rand) :
    anomalyConsistent costData a := by
  have ha2 : a ∈ anomalyScan costData rand ((sortByCostDesc costData).take (2 * count)) 0 :=
    List.mem_of_mem_take ha
  obtain ⟨c, prev, score, hfind, hpct, rfl⟩ := anomalyScan_shape costData rand _ 0 a ha2
  have hmem : prev ∈ costData := List.mem_of_find?_eq_some hfind
  have hpred := List.find?_some hfind
  simp only [Bool.and_eq_true, beq_iff_eq] at hpred
  obtain ⟨⟨hdate, hserv⟩, hprov⟩ := hpred
  exact ⟨round1_ge_of_gt25 hpct,
    prev, hmem, hdate, hserv, hprov, rfl, hpct, rfl, rfl⟩

/-- Evaluation of `generateAnomalies` on a two-entry series whose second
entry spikes over the 25% gate: exactly one anomaly is emitted. -/
lemma generateAnomalies_pair (c : CostEntry)
    (hp1 : prevDayOf [eA0, c] c = some eA0)
    (hp2 : prevDayOf [eA0, c] eA0 = none)
    (hsort : sortByCostDesc [eA0, c] = [c, eA0])
    (hpct : 25 < pctIncrease c eA0) :
    generateAnomalies [eA0, c] 5 randZero = [mkAnomaly c eA0 (4/5)] := by
  unfold generateAnomalies
  rw [hsort]
  have ht : ([c, eA0] : List CostEntry).take (2 * 5) = [c, eA0] :=
    List.take_of_length_le (by norm_num)
  rw [ht]
  simp only [anomalyScan, hp1, hp2, if_pos hpct]
  rw [List.take_of_length_le (by norm_num)]
  norm_num [randZero]

/-- C1 counterexample. With a prior day at 100 and a spike to 125.04 the raw
increase 25.04% passes the 25% gate, but the recorded one-decimal
`percentage_increase` is exactly 25.0, refuting the claim that every emitted
anomaly records an increase strictly greater than 25. -/
theorem c1_counterexample :
    ¬ (∀ a ∈ generateAnomalies [eA0, eC0] 5 randZero,
        25 < a.percentage_increase) := by
  have hgen : generateAnomalies [eA0, eC0] 5 randZero = [mkAnomaly eC0 eA0 (4/5)] :=
    generateAnomalies_pair eC0 (by decide) (by decide)
      (by norm_num [sortByCostDesc, List.insertionSort, List.orderedInsert, costGE, eA0, eC0])
      (by norm_num [pctIncrease, eA0, eC0])
  intro h
  have h2 := h _ (by rw [hgen]; exact List.mem_singleton_self _)
  have heval : (mkAnomaly eC0 eA0 (4/5)).percentage_increase = 25 := by
    show round1 (pctIncrease eC0 eA0) = 25
    norm_num [round1, pctIncrease, eA0, eC0]
  rw [heval] at h2
  exact absurd h2 (by norm_num)

/-- C1 witness: the amended statement at the concrete anomaly emitted on the
series `[eA0, eB0]` (a clean 40% spike). -/
theorem c1_witness :
    mkAnomaly eB0 eA0 (4/5) ∈ generateAnomalies [eA0, eB0] 5 randZero ∧
      anomalyConsistent [eA0, eB0] (mkAnomaly eB0 eA0 (4/5)) := by
  have hgen : generateAnomalies [eA0, eB0] 5 randZero = [mkAnomaly eB0 eA0 (4/5)] :=
    generateAnomalies_pair eB0 (by decide) (by decide)
      (by norm_num [sortByCostDesc, List.insertionSort, List.orderedInsert, costGE, eA0, eB0])
      (by norm_num [pctIncrease, eA0, eB0])
  have hmem : mkAnomaly eB0 eA0 (4/5) ∈ generateAnomalies [eA0, eB0] 5 randZero := by
    rw [hgen]
    exact List.mem_singleton_self _
  exact ⟨hmem, c1_amended_anomaly_fields [eA0, eB0] 5 randZero _ hmem⟩

lemma pairwise_le_dates_filterMap {f : ℕ → Option BudgetHistoryEntry}
    (g : ℕ → ℤ) (hf : ∀ j x, f j = some x → x.date = g j)
    (hg : ∀ m n, m ≤ n → g m ≤ g n) (L : List ℕ) (hL : L.Pairwise (· < ·)) :
    ((L.filterMap f).map (·.date)).Pairwise (· ≤ ·) := by
  rw [List.map_filterMap]
  refine List.pairwise_filterMap.2 (hL.imp ?_)
  intro m n hmn b hb b2 hb2
  rcases hfm : f m with _ | x
  · rw [hfm] at hb
    simp at hb
  · rw [hfm] at hb
    rcases hfn : f n with _ | y
    · rw [hfn] at hb2
      simp at hb2
    · rw [hfn] at hb2
      simp at hb hb2
      rw [← hb, ← hb2, hf m x hfm, hf n y hfn]
      exact hg m n (le_of_lt hmn)

lemma monthlyHistory_dates_sorted (budgetAmount : ℚ) (daysInMonth currentDay : ℕ)
    (rand : ℕ → ℚ) :
    ((monthlyHistory budgetAmount daysInMonth currentDay rand).map (·.date)).Pairwise
      (· ≤ ·) := by
  unfold monthlyHistory
  refine pairwise_le_dates_filterMap
    (fun j0 => ⌈min (((j0 : ℚ) + 1) / 5) ((currentDay : ℚ) / (daysInMonth : ℚ)) *
      (daysInMonth : ℚ)⌉) ?_ ?_ _ (List.pairwise_lt_range 5)
  · intro j x hx
    dsimp only at hx
    split at hx
    · cases hx
      push_cast
      rfl
    · cases hx
  · intro m n hmn
    apply Int.ceil_le_ceil
    apply mul_le_mul_of_nonneg_right _ (by positivity)
    apply min_le_min _ le_rfl
    apply (div_le_div_iff_of_pos_right (by norm_num)).2
    exact_mod_cast Nat.succ_le_succ hmn

lemma quarterlyHistory_dates_sorted (budgetAmount totalDays nowDiff : ℚ)
    (startDay : ℤ) (rand : ℕ → ℚ) (htd : 0 ≤ totalDays) :
    ((quarterlyHistory budgetAmount totalDays nowDiff startDay rand).map (·.date)).Pairwise
      (· ≤ ·) := by
  unfold quarterlyHistory
  refine pairwise_le_dates_filterMap
    (fun j0 => startDay + ⌈min (((j0 : ℚ) + 1) / 5) (min nowDiff totalDays / totalDays) *
      totalDays⌉) ?_ ?_ _ (List.pairwise_lt_range 5)
  · intro j x hx
    dsimp only at hx
    split at hx
    · cases hx
      push_cast
      rfl
    · cases hx
  · intro m n hmn
    apply add_le_add_left
    apply Int.ceil_le_ceil
    apply mul_le_mul_of_nonneg_right _ htd
    apply min_le_min _ le_rfl
    apply (div_le_div_iff_of_pos_right (by norm_num)).2
    exact_mod_cast Nat.succ_le_succ hmn

lemma rampSpend_mono (budgetAmount P : ℚ) (rand : ℕ → ℚ) (hA : 0 ≤ budgetAmount)
    (hrand : ∀ n, 0 ≤ rand n ∧ rand n < 1) (j : ℕ) (hj1 : 1 ≤ j) (hj4 : j ≤ 4)
    (hP : ((j : ℚ) + 1) / 5 ≤ P) :
    rampSpend budgetAmount P rand j ≤ rampSpend budgetAmount P rand (j + 1) := by
  have hjc : (1 : ℚ) ≤ (j : ℚ) := by exact_mod_cast hj1
  have hjc4 : ((j : ℚ)) ≤ 4 := by exact_mod_cast hj4
  have h1 := (hrand j).1
  have h2 := (hrand j).2
  have h3 := (hrand (j + 1)).1
  unfold rampSpend jitter
  apply round2_mono
  push_cast
  rw [min_eq_left (by linarith), min_eq_left hP]
  have hjit1 : 9/10 + rand j * (2/10) ≤ 11/10 := by linarith
  have hjit3 : 0 ≤ 9/10 + rand (j + 1) * (2/10) := by
    have := mul_nonneg h3 (show (0:ℚ) ≤ 2/10 by norm_num)
    linarith
  calc budgetAmount * ((j : ℚ)/5) * (9/10 + rand j * (2/10))
      ≤ budgetAmount * ((j : ℚ)/5) * (11/10) := by
        apply mul_le_mul_of_nonneg_left hjit1
        exact mul_nonneg hA (by positivity)
    _ ≤ budgetAmount * (((j : ℚ) + 1)/5) * (9/10) := by
        nlinarith [mul_nonneg hA (show (0:ℚ) ≤ 9 - 2 * (j : ℚ) by linarith)]
    _ ≤ budgetAmount * (((j : ℚ) + 1)/5) * (9/10 + rand (j + 1) * (2/10)) := by
        apply mul_le_mul_of_nonneg_left _ (mul_nonneg hA (by positivity))
        have := mul_nonneg h3 (show (0:ℚ) ≤ 2/10 by norm_num)
        linarith

/-- C4 (amended). For every budget produced by the budget synthesizer, the
history dates are in non-decreasing order (both for the monthly and for the
quarterly history loop); the spends are non-decreasing across consecutive
steps whose progress ramp is not clamped by the elapsed-period fraction
(`(j+1)/5 ≤ P`) — the trailing clamped entries share one progress value and
differ only by the ±10% jitter, so their spends can decrease. -/
theorem c4_amended_budget_history (budgetAmount : ℚ) (daysInMonth currentDay : ℕ)
    (totalDays nowDiff : ℚ) (startDay : ℤ) (P : ℚ) (rand : ℕ → ℚ)
    (hA : 0 ≤ budgetAmount) (htd : 0 ≤ totalDays)
    (hrand : ∀ n, 0 ≤ rand n ∧ rand n < 1) :
    ((monthlyHistory budgetAmount daysInMonth currentDay rand).map (·.date)).Pairwise
        (· ≤ ·) ∧
    ((quarterlyHistory budgetAmount totalDays nowDiff startDay rand).map (·.date)).Pairwise
        (· ≤ ·) ∧
    (∀ j : ℕ, 1 ≤ j → j ≤ 4 → ((j : ℚ) + 1) / 5 ≤ P →
      rampSpend budgetAmount P rand j ≤ rampSpend budgetAmount P rand (j + 1)) :=
  ⟨monthlyHistory_dates_sorted budgetAmount daysInMonth currentDay rand,
   quarterlyHistory_dates_sorted budgetAmount totalDays nowDiff startDay rand htd,
   fun j hj1 hj4 hP => rampSpend_mono budgetAmount P rand hA hrand j hj1 hj4 hP⟩

/-- The draw stream exhibiting the C4 spend decrease: full jitter on the
first history step, none afterwards. -/
def randCE : ℕ → ℚ := fun n => if n = 1 then 1/2 else 0

/-- C4 counterexample. On day 6 of a 30-day month every history step is
clamped to the same 20% progress, so with a high jitter draw followed by low
ones the spends go 200, 180, ... — not non-decreasing, refuting the claim
that budget-history spends always accumulate monotonically. -/
theorem c4_counterexample :
    ¬ (((monthlyHistory 1000 30 6 randCE).map (·.spend)).Pairwise (· ≤ ·)) := by
  have h : (monthlyHistory 1000 30 6 randCE).map (·.spend) =
      [200, 180, 180, 180, 180] := by
    unfold monthlyHistory
    rw [show List.range 5 = [0, 1, 2, 3, 4] from rfl]
    norm_num [rampSpend, jitter, randCE, round2, List.filterMap_cons]
  rw [h]
  intro hp
  exact absurd ((List.pairwise_cons.1 hp).1 180 (by simp)) (by norm_num)

/-- C4 witness: the amended statement at concrete parameters (mid-month
monthly budget, mid-quarter quarterly budget, unclamped ramp fraction). -/
theorem c4_witness :
    ((monthlyHistory 1000 30 15 randZero).map (·.date)).Pairwise (· ≤ ·) ∧
    ((quarterlyHistory 1000 90 45 0 randZero).map (·.date)).Pairwise (· ≤ ·) ∧
    (∀ j : ℕ, 1 ≤ j → j ≤ 4 → ((j : ℚ) + 1) / 5 ≤ 1/2 →
      rampSpend 1000 (1/2) randZero j ≤ rampSpend 1000 (1/2) randZero (j + 1)) :=
  c4_amended_budget_history 1000 30 15 90 45 0 (1/2) randZero (by norm_num)
    (by norm_num) (fun n => by norm_num [randZero])

lemma filter_flatMap {α β : Type} (l : List α) (F : α → List β) (pred : β → Bool) :
    (l.flatMap F).filter pred = l.flatMap (fun a => (F a).filter pred) := by
  induction l with
  | nil => rfl
  | cons x xs ih => simp [List.flatMap_cons, List.filter_append, ih]

lemma flatMap_eq_single {α β : Type} (l : List α) (F : α → List β) (a : α)
    (ha : a ∈ l) (hnd : l.Nodup) (hother : ∀ b ∈ l, b ≠ a → F b = []) :
    l.flatMap F = F a := by
  induction l with
  | nil => cases ha
  | cons x xs ih =>
    rcases List.mem_cons.1 ha with rfl | hmem
    · have hxs : ∀ b ∈ xs, F b = [] := fun b hb =>
        hother b (List.mem_cons_of_mem _ hb)
          (fun he => (List.nodup_cons.1 hnd).1 (he ▸ hb))
      rw [List.flatMap_cons, List.flatMap_eq_nil_iff.2 hxs, List.append_nil]
    · have hx : F x = [] := hother x (List.mem_cons_self _ _)
        (fun he => (List.nodup_cons.1 hnd).1 (he ▸ hmem))
      rw [List.flatMap_cons, hx, List.nil_append]
      exact ih hmem (List.nodup_cons.1 hnd).2
        (fun b hb hne => hother b (List.mem_cons_of_mem _ hb) hne)

lemma filter_serviceCostSeries (cal : Calendar) (today : ℤ) (days : ℕ)
    (p s : String) (base : ℚ) (rnd : ℕ → ℕ → ℚ) (p2 s2 : String) :
    (serviceCostSeries cal today days p s base rnd).filter
        (fun e => e.cloud_provider == p2 && e.service == s2) =
      if p = p2 ∧ s = s2 then serviceCostSeries cal today days p s base rnd
      else [] := by
  by_cases h : p = p2 ∧ s = s2
  · rw [if_pos h]
    apply List.filter_eq_self.2
    intro e he
    obtain ⟨i, hi, rfl⟩ := List.mem_map.1 he
    simp [costDay, h.1, h.2]
  · rw [if_neg h]
    apply List.filter_eq_nil_iff.2
    intro e he
    obtain ⟨i, hi, rfl⟩ := List.mem_map.1 he
    simp only [costDay, Bool.and_eq_true, beq_iff_eq]
    intro hcontra
    exact h ⟨hcontra.1, hcontra.2⟩

lemma map_date_serviceCostSeries (cal : Calendar) (today : ℤ) (days : ℕ)
    (p s : String) (base : ℚ) (rnd : ℕ → ℕ → ℚ) :
    (serviceCostSeries cal today days p s base rnd).map (·.date) =
      (List.range days).map (fun i : ℕ => today - (days : ℤ) + (i : ℤ) + 1) := by
  unfold serviceCostSeries
  rw [List.map_map]
  rfl

/-- C6. For every (provider, service) pair covered by `generateCostData`, the
entries selected for that pair carry exactly the trailing `days` calendar
dates ending `today`, in order — one entry per day, unique and contiguous. -/
theorem c6_cost_series_window (cal : Calendar) (today : ℤ) (days : ℕ)
    (baseRnd : String → String → ℚ) (rnd : String → String → ℕ → ℕ → ℚ)
    (p s : String) (hp : p ∈ CLOUD_PROVIDERS) (hs : s ∈ servicesOf p) :
    ((generateCostData cal today days baseRnd rnd).filter
        (fun e => e.cloud_provider == p && e.service == s)).map (·.date) =
      (List.range days).map (fun i : ℕ => today - (days : ℤ) + (i : ℤ) + 1) := by
  have hnodup : CLOUD_PROVIDERS.Nodup := by decide
  have hnodups : (servicesOf p).Nodup := by
    have hp2 := hp
    simp only [CLOUD_PROVIDERS, List.mem_cons, List.not_mem_nil, or_false] at hp2
    rcases hp2 with rfl | rfl | rfl <;> decide
  have hinner : ∀ sv ∈ servicesOf p, sv ≠ s →
      (serviceCostSeries cal today days p sv
          (baseCostOf p (baseRnd p sv)) (rnd p sv)).filter
        (fun e => e.cloud_provider == p && e.service == s) = [] := by
    intro sv hsv hne
    rw [filter_serviceCostSeries]
    exact if_neg (fun hc => hne hc.2)
  have houter : ∀ pv ∈ CLOUD_PROVIDERS, pv ≠ p →
      ((servicesOf pv).flatMap (fun sv => serviceCostSeries cal today days pv sv
          (baseCostOf pv (baseRnd pv sv)) (rnd pv sv))).filter
        (fun e => e.cloud_provider == p && e.service == s) = [] := by
    intro pv hpv hne
    rw [filter_flatMap]
    apply List.flatMap_eq_nil_iff.2
    intro sv hsv
    rw [filter_serviceCostSeries]
    exact if_neg (fun hc => hne hc.1)
  have key : (generateCostData cal today days baseRnd rnd).filter
      (fun e => e.cloud_provider == p && e.service == s) =
      serviceCostSeries cal today days p s (baseCostOf p (baseRnd p s)) (rnd p s) := by
    unfold generateCostData
    rw [filter_flatMap, flatMap_eq_single CLOUD_PROVIDERS _ p hp hnodup houter,
      filter_flatMap, flatMap_eq_single (servicesOf p) _ s hs hnodups hinner,
      filter_serviceCostSeries, if_pos ⟨rfl, rfl⟩]
  rw [key, map_date_serviceCostSeries]

/-- C6 witness: the window theorem at a concrete calendar, draw streams,
provider, service and 3-day window. -/
theorem c6_witness :
    ((generateCostData calZero 0 3 (fun _ _ => 0) (fun _ _ _ _ => 0)).filter
        (fun e => e.cloud_provider == "AWS" && e.service == "EC2")).map (·.date) =
      (List.range 3).map (fun i : ℕ => 0 - (3 : ℤ) + (i : ℤ) + 1) :=
  c6_cost_series_window calZero 0 3 (fun _ _ => 0) (fun _ _ _ _ => 0) "AWS" "EC2"
    (by decide) (by decide)

/-- C7. A generated resource has status `"running"` exactly when at least one
utilization sample references its id; resources with any other status have no
samples.  Requires at least one generated day and distinct resource ids (the
generator draws ids at random, and an id collision would alias two
resources). -/
theorem c7_running_iff_sampled (cal : Calendar) (resources : List CloudResource)
    (today : ℤ) (days : ℕ) (randB : String → ℕ → ℚ)
    (randS : String → ℕ → ℕ → ℕ → ℚ) (hdays : 1 ≤ days)
    (hids : (resources.map (·.id)).Nodup) (r : CloudResource)
    (hr : r ∈ resources) :
    r.status = "running" ↔
      ∃ u ∈ generateUtilizationData cal resources today days randB randS,
        u.resource_id = r.id := by
  constructor
  · intro hst
    refine ⟨utilSample cal r (baseUtilOf r (randB r.id)).1
      (baseUtilOf r (randB r.id)).2 (today - (days : ℤ) + ((0 : ℕ) : ℤ) + 1) 0
      (randS r.id 0 0), ?_, rfl⟩
    unfold generateUtilizationData
    apply List.mem_flatMap.2
    refine ⟨r, hr, ?_⟩
    rw [if_pos (by simp [hst])]
    dsimp only
    exact List.mem_flatMap.2 ⟨0, List.mem_range.2 (by omega),
      List.mem_map.2 ⟨0, by simp, rfl⟩⟩
  · rintro ⟨u, hu, hid⟩
    unfold generateUtilizationData at hu
    obtain ⟨r2, hr2, hu2⟩ := List.mem_flatMap.1 hu
    by_cases hst : r2.status == "running"
    · rw [if_pos hst] at hu2
      dsimp only at hu2
      obtain ⟨i, hi, hu3⟩ := List.mem_flatMap.1 hu2
      obtain ⟨h, hh, rfl⟩ := List.mem_map.1 hu3
      have hr2id : r2.id = r.id := hid
      have heq : r2 = r := List.inj_on_of_nodup_map hids hr2 hr hr2id
      rw [← heq]
      simpa using hst
    · rw [if_neg hst] at hu2
      simp at hu2

/-- A concrete running EC2 resource. -/
def rRun : CloudResource :=
  { id := "i-1", name := "ec2-a", type := "EC2", provider := "AWS",
    region := "us-east-1", status := "running", size := "t3.micro", tags := [],
    monthly_cost := 20, creation_date := -10, last_modified := -5 }

/-- A concrete stopped EC2 resource. -/
def rStop : CloudResource :=
  { id := "i-2", name := "ec2-b", type := "EC2", provider := "AWS",
    region := "us-east-1", status := "stopped", size := "t3.micro", tags := [],
    monthly_cost := 20, creation_date := -10, last_modified := -5 }

/-- C7 witness: the equivalence at a concrete resource pool. -/
theorem c7_witness :
    rRun.status = "running" ↔
      ∃ u ∈ generateUtilizationData calZero [rRun, rStop] 0 1
          (fun _ _ => 0) (fun _ _ _ _ => 0), u.resource_id = rRun.id :=
  c7_running_iff_sampled calZero [rRun, rStop] 0 1 (fun _ _ => 0)
    (fun _ _ _ _ => 0) (by omega) (by decide) rRun (by decide)

lemma lastEntryOf_mem {l : List CostEntry} (h : l ≠ []) : lastEntryOf l ∈ l := by
  unfold lastEntryOf
  exact mem_sortByDateDesc.1 (firstOr_mem default (sortByDateDesc_ne_nil h))

lemma oldestRecentOf_mem {l : List CostEntry} (h : l ≠ []) : oldestRecentOf l ∈ l := by
  unfold oldestRecentOf
  have h30 : (sortByDateDesc l).take 30 ≠ [] := by
    intro hc
    rcases List.take_eq_nil_iff.1 hc with h0 | hnil
    · exact absurd h0 (by norm_num)
    · exact sortByDateDesc_ne_nil h hnil
  exact mem_sortByDateDesc.1 (List.take_subset 30 _ (lastOr_mem default h30))

lemma forecastD_of_ne_nil (costData : List CostEntry) (days : ℕ) (rand : ℕ → ℚ)
    (h : costData ≠ []) :
    forecastD costData days rand =
      { forecast_dates := (List.range days).map (fun i0 : ℕ =>
          (lastEntryOf costData).date + ((i0 : ℤ) + 1))
        forecast_values := (List.range days).map (fun i0 =>
          round2J (forecastValueJ (lastCostOf costData) (dailyTrendOf costData)
            rand (i0 + 1)))
        lower_bound := (List.range days).map (fun i0 =>
          round2J (jsMul (forecastValueJ (lastCostOf costData) (dailyTrendOf costData)
            rand (i0 + 1)) (.real (1 - uncertaintyAt days (i0 + 1)))))
        upper_bound := (List.range days).map (fun i0 =>
          round2J (jsMul (forecastValueJ (lastCostOf costData) (dailyTrendOf costData)
            rand (i0 + 1)) (.real (1 + uncertaintyAt days (i0 + 1)))))
        confidence_level := 9/10 } := by
  unfold forecastD generateForecastData
  rw [if_neg (by simp [h])]
  rfl

lemma jsMul_real (a b : ℝ) : jsMul (.real a) (.real b) = .real (a * b) := rfl

lemma jsSub_real (a b : ℝ) : (JsNum.real a) - (JsNum.real b) = .real (a - b) := rfl

lemma round2J_real (x : ℝ) : round2J (.real x) = .real (round2R x) := rfl

lemma jsLe_real {a b : ℝ} : (JsNum.real a ≤ JsNum.real b) ↔ a ≤ b := Iff.rfl

lemma jsDiv_real_of_ne (t u : ℝ) (hu : u ≠ 0) :
    jsDiv (.real t) (.real u) = .real (t / u) := by
  simp only [jsDiv]
  rw [if_neg hu]

lemma jsPow_real_pos (t y : ℝ) (ht : 0 < t) (hy : y ≠ 0) :
    jsPow (.real t) (.real y) = .real (t ^ y) := by
  simp only [jsPow]
  rw [if_neg hy, if_neg (ne_of_gt ht), if_neg (fun hc => absurd hc.1 (asymm ht))]

lemma jsPow_real_natCast (t : ℝ) (i : ℕ) :
    jsPow (.real t) (.real (i : ℝ)) = .real (t ^ i) := by
  by_cases hi : i = 0
  · subst hi
    simp only [jsPow]
    rw [if_pos (by norm_num : (((0 : ℕ)) : ℝ) = 0), pow_zero]
  · have hiR : ((i : ℕ) : ℝ) ≠ 0 := Nat.cast_ne_zero.2 hi
    by_cases ht0 : t = 0
    · subst ht0
      simp only [jsPow]
      rw [if_neg hiR, if_pos trivial,
        if_pos (Nat.cast_pos.2 (Nat.pos_of_ne_zero hi) : (0:ℝ) < (i : ℝ)),
        zero_pow hi]
    · have h2 : ¬ (t < 0 ∧ ¬ isIntR ((i : ℕ) : ℝ)) := by
        intro hc
        exact hc.2 ⟨(i : ℤ), by push_cast; ring⟩
      simp only [jsPow]
      rw [if_neg hiR, if_neg ht0, if_neg h2, Real.rpow_natCast]

lemma forecastValueJ_real (L T : ℝ) (rand : ℕ → ℚ) (i : ℕ) :
    forecastValueJ L (.real T) rand i = .real (forecastValueAt L T rand i) := by
  unfold forecastValueJ forecastValueAt
  rw [jsPow_real_natCast, jsMul_real, jsMul_real]

lemma dailyTrendOf_real (l : List CostEntry) (hL : 0 < lastCostOf l)
    (hO : (0:ℝ) < (((oldestRecentOf l).daily_cost : ℚ) : ℝ))
    (hdd : daysDifferenceOf l ≠ 0) :
    dailyTrendOf l =
      .real ((lastCostOf l / (((oldestRecentOf l).daily_cost : ℚ) : ℝ)) ^
        ((1 : ℝ) / ((daysDifferenceOf l : ℤ) : ℝ))) := by
  have hddR : ((daysDifferenceOf l : ℤ) : ℝ) ≠ 0 := Int.cast_ne_zero.2 hdd
  unfold dailyTrendOf trendFactorOf
  rw [jsDiv_real_of_ne _ _ (ne_of_gt hO), jsDiv_real_of_ne _ _ hddR,
    jsPow_real_pos _ _ (div_pos hL hO) (one_div_ne_zero hddR)]

/-- C5 (amended). On every non-empty cost series with positive costs (the
`CostEntry` data-model invariant) whose trend window spans at least one
calendar day (`daysDifference ≠ 0`), and any horizon, the projector returns
four parallel sequences of length `days` and the confidence bounds bracket
each forecast value.  Without the `daysDifference` hypothesis the bracketing
fails: a single-entry series makes the host compute
`Math.pow(1, 1 / 0) = NaN`, so every value and bound is `NaN` and every
comparison between them is false (`c5_counterexample`). -/
theorem c5_forecast_shape (costData : List CostEntry) (days : ℕ) (rand : ℕ → ℚ)
    (hne : costData ≠ []) (hpos : ∀ e ∈ costData, 0 < e.daily_cost)
    (hdd : daysDifferenceOf costData ≠ 0)
    (hrand : ∀ n, 0 ≤ rand n ∧ rand n < 1) :
    (forecastD costData days rand).forecast_dates.length = days ∧
    (forecastD costData days rand).forecast_values.length = days ∧
    (forecastD costData days rand).lower_bound.length = days ∧
    (forecastD costData days rand).upper_bound.length = days ∧
    (∀ i : ℕ, i < days →
      (forecastD costData days rand).lower_bound[i]! ≤
        (forecastD costData days rand).forecast_values[i]! ∧
      (forecastD costData days rand).forecast_values[i]! ≤
        (forecastD costData days rand).upper_bound[i]!) := by
  have hL : 0 < lastCostOf costData := by
    unfold lastCostOf
    exact_mod_cast hpos _ (lastEntryOf_mem hne)
  have hO : (0:ℝ) < (((oldestRecentOf costData).daily_cost : ℚ) : ℝ) := by
    exact_mod_cast hpos _ (oldestRecentOf_mem hne)
  obtain ⟨T, hDT, hT⟩ : ∃ T : ℝ, dailyTrendOf costData = .real T ∧ 0 ≤ T :=
    ⟨_, dailyTrendOf_real costData hL hO hdd,
      Real.rpow_nonneg (le_of_lt (div_pos hL hO)) _⟩
  have hfv : ∀ i : ℕ, 0 ≤ forecastValueAt (lastCostOf costData) T rand i := by
    intro i
    unfold forecastValueAt
    apply mul_nonneg (mul_nonneg (le_of_lt hL) (pow_nonneg hT i))
    have h0 : (0:ℝ) ≤ ((rand i : ℚ) : ℝ) := by exact_mod_cast (hrand i).1
    nlinarith
  have hu : ∀ i : ℕ, 0 ≤ uncertaintyAt days i := by
    intro i
    unfold uncertaintyAt
    positivity
  rw [forecastD_of_ne_nil costData days rand hne]
  refine ⟨by simp, by simp, by simp, by simp, ?_⟩
  intro i hi
  dsimp only
  rw [getElemBang_range_map _ days i hi, getElemBang_range_map _ days i hi,
    getElemBang_range_map _ days i hi]
  rw [hDT, forecastValueJ_real, jsMul_real, jsMul_real, round2J_real,
    round2J_real, round2J_real]
  refine ⟨jsLe_real.2 (round2R_mono ?_), jsLe_real.2 (round2R_mono ?_)⟩
  · nlinarith [hfv (i + 1), hu (i + 1), mul_nonneg (hfv (i + 1)) (hu (i + 1))]
  · nlinarith [hfv (i + 1), hu (i + 1), mul_nonneg (hfv (i + 1)) (hu (i + 1))]

/-- C5 witness: the amended shape theorem at a concrete two-entry series
spanning one calendar day, with a one-day horizon. -/
theorem c5_witness :
    (forecastD [eA0, eB0] 1 randZero).forecast_dates.length = 1 ∧
    (forecastD [eA0, eB0] 1 randZero).forecast_values.length = 1 ∧
    (forecastD [eA0, eB0] 1 randZero).lower_bound.length = 1 ∧
    (forecastD [eA0, eB0] 1 randZero).upper_bound.length = 1 ∧
    (∀ i : ℕ, i < 1 →
      (forecastD [eA0, eB0] 1 randZero).lower_bound[i]! ≤
        (forecastD [eA0, eB0] 1 randZero).forecast_values[i]! ∧
      (forecastD [eA0, eB0] 1 randZero).forecast_values[i]! ≤
        (forecastD [eA0, eB0] 1 randZero).upper_bound[i]!) :=
  c5_forecast_shape [eA0, eB0] 1 randZero (by decide) (by decide) (by decide)
    (fun n => by norm_num [randZero])

/-- C5 counterexample. On the single-entry series `[eA0]` the host computes
`daysDifference = 0`, then `Math.pow(1, 1 / 0) = Math.pow(1, Infinity)`,
which ECMA-262 defines as `NaN`: the first forecast value is `NaN`, and the
lower bound does not lie below it, since every comparison against `NaN` is
false. -/
theorem c5_counterexample :
    ([eA0] : List CostEntry) ≠ [] ∧
    (forecastD [eA0] 1 randZero).forecast_values[0]! = JsNum.nan ∧
    ¬ ((forecastD [eA0] 1 randZero).lower_bound[0]! ≤
        (forecastD [eA0] 1 randZero).forecast_values[0]!) := by
  have hlast : lastEntryOf [eA0] = eA0 := by decide
  have hold : oldestRecentOf [eA0] = eA0 := by decide
  have hdd : daysDifferenceOf [eA0] = 0 := by decide
  have hLC : lastCostOf [eA0] = 100 := by
    unfold lastCostOf
    rw [hlast]
    norm_num [eA0]
  have hTF : trendFactorOf [eA0] = .real 1 := by
    unfold trendFactorOf
    rw [hLC, hold, jsDiv_real_of_ne _ _ (by norm_num [eA0])]
    norm_num [eA0]
  have hDT : dailyTrendOf [eA0] = JsNum.nan := by
    unfold dailyTrendOf
    rw [hTF, hdd]
    have hdiv : jsDiv (.real 1) (.real (((0 : ℤ)) : ℝ)) = JsNum.posInf := by
      simp only [jsDiv]
      rw [if_pos (by norm_num : (((0 : ℤ)) : ℝ) = 0),
        if_neg (by norm_num : ¬ (1:ℝ) = 0), if_pos (by norm_num : (0:ℝ) < 1)]
    rw [hdiv]
    simp only [jsPow]
    rw [if_pos (Or.inl trivial)]
  have hfv : forecastValueJ (lastCostOf [eA0]) JsNum.nan randZero (0 + 1) =
      JsNum.nan := by
    unfold forecastValueJ
    have hp : jsPow JsNum.nan (.real (((0 + 1 : ℕ)) : ℝ)) = JsNum.nan := by
      simp only [jsPow]
      rw [if_neg (by norm_num : ¬ (((0 + 1 : ℕ)) : ℝ) = 0)]
    rw [hp]
    rfl
  rw [forecastD_of_ne_nil [eA0] 1 randZero (by decide)]
  dsimp only
  rw [getElemBang_range_map _ 1 0 (by omega), getElemBang_range_map _ 1 0 (by omega)]
  rw [hDT, hfv]
  exact ⟨by decide, rfl, fun hcon => hcon⟩

/-- C3 (amended). The relative confidence-band half-width
`0.05 + (i / days) * 0.15` applied at horizon step `i` is strictly increasing
in `i`, and before rounding the band width equals twice that fraction times
the forecast value; since the forecast value itself can decay geometrically
(a decreasing trend), the recorded absolute width `upper - lower` need not be
non-decreasing. -/
theorem c3_amended_uncertainty_monotone (days i : ℕ) (h : i + 2 ≤ days) :
    uncertaintyAt days (i + 1) < uncertaintyAt days (i + 2) ∧
    (∀ (lastCost dailyTrend : ℝ) (rand : ℕ → ℚ),
      forecastValueAt lastCost dailyTrend rand (i + 1) *
          (1 + uncertaintyAt days (i + 1)) -
        forecastValueAt lastCost dailyTrend rand (i + 1) *
          (1 - uncertaintyAt days (i + 1)) =
      2 * uncertaintyAt days (i + 1) *
        forecastValueAt lastCost dailyTrend rand (i + 1)) := by
  constructor
  · unfold uncertaintyAt
    have hd : (0:ℝ) < (days : ℝ) := by
      have h0 : 0 < days := by omega
      exact_mod_cast h0
    have hlt : ((i:ℝ) + 1) / (days : ℝ) < ((i:ℝ) + 2) / (days : ℝ) := by
      rw [div_lt_div_iff₀ hd hd]
      nlinarith
    push_cast
    nlinarith [hlt]
  · intro lastCost dailyTrend rand
    ring

/-- C3 witness: the amended statement at a 2-day horizon and its first step. -/
theorem c3_witness :
    uncertaintyAt 2 1 < uncertaintyAt 2 2 ∧
    (∀ (lastCost dailyTrend : ℝ) (rand : ℕ → ℚ),
      forecastValueAt lastCost dailyTrend rand 1 * (1 + uncertaintyAt 2 1) -
        forecastValueAt lastCost dailyTrend rand 1 * (1 - uncertaintyAt 2 1) =
      2 * uncertaintyAt 2 1 * forecastValueAt lastCost dailyTrend rand 1) :=
  c3_amended_uncertainty_monotone 2 0 (by omega)

/-- The concrete decaying series for the C3 counterexample: 100 on day 0,
then 10 on day 1. -/
def cd3 : List CostEntry := [eA0, eD0]

/-- C3 counterexample. On a decaying series (trend factor 1/10) with the
draws fixed at 1/2, the day-1 band is 0.88..1.13 (width 0.25) while the day-2
band is 0.08..0.12 (width 0.04): the recorded band width strictly decreases
with the horizon, refuting the claim that it is non-decreasing. -/
theorem c3_counterexample :
    ¬ ((forecastD cd3 2 randHalf).upper_bound[0]! -
         (forecastD cd3 2 randHalf).lower_bound[0]! ≤
       (forecastD cd3 2 randHalf).upper_bound[1]! -
         (forecastD cd3 2 randHalf).lower_bound[1]!) := by
  have hlast : lastEntryOf cd3 = eD0 := by decide
  have hold : oldestRecentOf cd3 = eA0 := by decide
  have hdd : daysDifferenceOf cd3 = 1 := by decide
  have hLC : lastCostOf cd3 = 10 := by
    unfold lastCostOf
    rw [hlast]
    norm_num [eD0]
  have hL : (0:ℝ) < lastCostOf cd3 := by
    rw [hLC]
    norm_num
  have hO : (0:ℝ) < (((oldestRecentOf cd3).daily_cost : ℚ) : ℝ) := by
    rw [hold]
    norm_num [eA0]
  have hDT : dailyTrendOf cd3 = .real (1/10) := by
    rw [dailyTrendOf_real cd3 hL hO (by rw [hdd]; norm_num), hLC, hold, hdd]
    congr 1
    have hexp : ((1:ℝ) / (((1 : ℤ)) : ℝ)) = 1 := by norm_num
    rw [hexp, Real.rpow_one]
    norm_num [eA0]
  rw [forecastD_of_ne_nil cd3 2 randHalf (by decide)]
  dsimp only
  rw [getElemBang_range_map _ 2 0 (by omega), getElemBang_range_map _ 2 0 (by omega),
      getElemBang_range_map _ 2 1 (by omega), getElemBang_range_map _ 2 1 (by omega)]
  rw [hLC, hDT, forecastValueJ_real, forecastValueJ_real]
  have hu1 : uncertaintyAt 2 (0 + 1) = 1/8 := by
    unfold uncertaintyAt
    norm_num
  have hu2 : uncertaintyAt 2 (1 + 1) = 1/5 := by
    unfold uncertaintyAt
    norm_num
  have hfv1 : forecastValueAt 10 (1/10) randHalf (0 + 1) = 1 := by
    unfold forecastValueAt
    norm_num [randHalf]
  have hfv2 : forecastValueAt 10 (1/10) randHalf (1 + 1) = 1/10 := by
    unfold forecastValueAt
    norm_num [randHalf]
  rw [hu1, hu2, hfv1, hfv2]
  rw [jsMul_real, jsMul_real, jsMul_real, jsMul_real,
    round2J_real, round2J_real, round2J_real, round2J_real]
  have r1 : round2R (1 * (1 + 1/8)) = 113/100 := by
    unfold round2R
    norm_num
  have r2 : round2R (1 * (1 - 1/8)) = 88/100 := by
    unfold round2R
    norm_num
  have r3 : round2R (1/10 * (1 + 1/5)) = 12/100 := by
    unfold round2R
    norm_num
  have r4 : round2R (1/10 * (1 - 1/5)) = 8/100 := by
    unfold round2R
    norm_num
  rw [r1, r2, r3, r4, jsSub_real, jsSub_real, jsLe_real]
  norm_num
